import Mathlib

/-!
# Verification of the instrumented query-pipeline core

This development embeds the data model and operations of the chatbot
repository's instrumented multi-stage query pipeline (StageResult,
QueryTrace, HistoryStore, PipelineOrchestrator, MetricsAggregator) and the
admin UI's `ApiClient.handleResponse`, and proves the specified properties
about them.

The pipeline core itself ships in the repository only as documentation
(`PIPELINE_VISUALIZATION_README.md`); the Python modules it describes
(`EnhancedPipeline.py`, `interactive_pipeline_monitor.py`, ...) are not part
of the source tree here, so those components are modelled from the spec, as
marked on each definition.  `ApiClient` is translated directly from the
TypeScript source.
-/

namespace Chatbot

/-- Modelled from the spec: the fixed enumeration of pipeline stage names
(§3 StageResult: Routing, Retrieval, History, PromptGeneration, Security,
Inference, Formatting); the pipeline implementation files are missing from
the source tree. -/
inductive StageName where
  | Routing
  | Retrieval
  | History
  | PromptGeneration
  | Security
  | Inference
  | Formatting
deriving DecidableEq, Repr

/-- Modelled from the spec: StageResult.status ∈ {Success, Failed, Skipped}
(§3); the pipeline implementation files are missing from the source tree. -/
inductive StageStatus where
  | Success
  | Failed
  | Skipped
deriving DecidableEq, Repr

/-- Modelled from the spec: the error taxonomy of §7 (StageFailure, its
Timeout specialization, and Cancelled); the pipeline implementation files
are missing from the source tree. -/
inductive ErrorKind where
  | StageFailure
  | Timeout
  | Cancelled
deriving DecidableEq, Repr

/-- Modelled from the spec: a structured error kind plus message
(§3 StageResult.error); the pipeline implementation files are missing from
the source tree. -/
structure StageError where
  kind : ErrorKind
  message : String
deriving DecidableEq, Repr

/-- Modelled from the spec: StageResult (§3) — one stage's outcome with
name, status, elapsed duration, diagnostic detail and optional error; the
pipeline implementation files are missing from the source tree.  Durations
are in integral time units (e.g. milliseconds). -/
structure StageResult where
  stage_name : StageName
  status : StageStatus
  duration : Nat
  detail : List (String × String)
  error : Option StageError
deriving DecidableEq, Repr

/-- Modelled from the spec: QueryTrace.overall_status ∈
{InProgress, Completed, Failed} (§3); the pipeline implementation files are
missing from the source tree. -/
inductive OverallStatus where
  | InProgress
  | Completed
  | Failed
deriving DecidableEq, Repr

/-- Modelled from the spec: QueryTrace (§3) — one query's end-to-end
record; the pipeline implementation files are missing from the source
tree. -/
structure QueryTrace where
  query_id : Nat
  user_id : String
  query_text : String
  stages : List StageResult
  overall_status : OverallStatus
  total_duration : Nat
deriving DecidableEq, Repr

/-- Modelled from the spec: HistoryStore (§3, §4.2) — a bounded,
insertion-ordered collection of the most recent closed QueryTraces with a
capacity fixed at construction; the pipeline implementation files are
missing from the source tree (the README documents the eviction as
`self.history.append(..)` followed by popping index 0 when the length
exceeds the limit). -/
structure HistoryStore where
  capacity : Nat
  traces : List QueryTrace
deriving DecidableEq, Repr

/-- Modelled from the spec: a freshly constructed HistoryStore of the given
capacity holds no traces. -/
def HistoryStore.empty (c : Nat) : HistoryStore :=
  { capacity := c, traces := [] }

/-- Modelled from the spec: `push(trace)` appends the trace and, when the
store then exceeds its capacity, evicts the oldest trace (FIFO), exactly as
the README's monitor does with `history.append` / `history.pop(0)`. -/
def HistoryStore.push (s : HistoryStore) (t : QueryTrace) : HistoryStore :=
  let ts := s.traces ++ [t]
  if s.capacity < ts.length then { s with traces := ts.tail } else { s with traces := ts }

/-- Modelled from the spec: `snapshot()` returns the stored traces
oldest→newest (§4.2). -/
def HistoryStore.snapshot (s : HistoryStore) : List QueryTrace :=
  s.traces

theorem HistoryStore.push_capacity (s : HistoryStore) (t : QueryTrace) :
    (s.push t).capacity = s.capacity := by
  unfold HistoryStore.push
  dsimp only
  split <;> rfl

theorem HistoryStore.push_traces (s : HistoryStore) (t : QueryTrace)
    (h : s.traces.length ≤ s.capacity) :
    (s.push t).traces = (s.traces ++ [t]).drop (s.traces.length + 1 - s.capacity) := by
  unfold HistoryStore.push
  dsimp only
  rcases Nat.lt_or_ge s.traces.length s.capacity with hlt | hge
  · rw [if_neg (by simp; omega)]
    have : s.traces.length + 1 - s.capacity = 0 := by omega
    rw [this, List.drop_zero]
  · have heq : s.traces.length = s.capacity := Nat.le_antisymm h hge
    rw [if_pos (by simp; omega)]
    have : s.traces.length + 1 - s.capacity = 1 := by omega
    rw [this, ← List.drop_one]

theorem HistoryStore.push_length_le (s : HistoryStore) (t : QueryTrace)
    (h : s.traces.length ≤ s.capacity) :
    (s.push t).traces.length ≤ s.capacity := by
  rw [HistoryStore.push_traces s t h, List.length_drop]
  simp
  omega

theorem HistoryStore.push_length_of_lt (s : HistoryStore) (t : QueryTrace)
    (h : s.traces.length < s.capacity) :
    (s.push t).traces.length = s.traces.length + 1 := by
  rw [HistoryStore.push_traces s t (Nat.le_of_lt h), List.length_drop]
  simp
  omega

/-- Folding a sequence of pushes over a store that satisfies the capacity
invariant leaves exactly the most recent `capacity` traces, in push order. -/
theorem HistoryStore.foldl_push_traces (L : List QueryTrace) :
    ∀ s : HistoryStore, s.traces.length ≤ s.capacity →
      (L.foldl HistoryStore.push s).traces =
        (s.traces ++ L).drop (s.traces.length + L.length - s.capacity) := by
  induction L with
  | nil =>
      intro s h
      simp
      have : s.traces.length - s.capacity = 0 := by omega
      rw [this, List.drop_zero]
  | cons t L ih =>
      intro s h
      have hcap : (s.push t).capacity = s.capacity := HistoryStore.push_capacity s t
      have hle : (s.push t).traces.length ≤ (s.push t).capacity := by
        rw [hcap]; exact HistoryStore.push_length_le s t h
      rw [List.foldl_cons, ih (s.push t) hle, hcap, HistoryStore.push_traces s t h]
      have hk : s.traces.length + 1 - s.capacity ≤ (s.traces ++ [t]).length := by
        simp
      rw [← List.drop_append_of_le_length hk, List.drop_drop]
      have hA : s.traces ++ t :: L = (s.traces ++ [t]) ++ L := by simp
      rw [hA]
      congr 1
      simp only [List.length_drop, List.length_append, List.length_cons, List.length_nil]
      omega

/-- Modelled from the spec: per-stage failure policy (§3
PipelineConfiguration, §4.1 step 4): a failed stage either aborts the
pipeline or is tolerated with a safe default; the pipeline implementation
files are missing from the source tree. -/
inductive FailurePolicy where
  | Abort
  | Continue
deriving DecidableEq, Repr

/-- Modelled from the spec: the outcome of invoking one external stage
collaborator (§4.4): success with output context, diagnostic detail and
elapsed duration, or a declared failure with its error and elapsed
duration. -/
inductive StageOutcome (Ctx : Type) where
  | success (newCtx : Ctx) (detail : List (String × String)) (duration : Nat)
  | failure (err : StageError) (duration : Nat)

/-- Modelled from the spec: one configured stage — its identifier, failure
policy, bound collaborator, and the safe default output substituted on a
continue-policy failure (§4.1 step 4). -/
structure Stage (Ctx : Type) where
  name : StageName
  policy : FailurePolicy
  run : Ctx → StageOutcome Ctx
  fallback : Ctx → Ctx

/-- Modelled from the spec: the orchestrator's stage loop (§4.1 steps 1-5):
each configured stage is invoked in order on the accumulated context and a
StageResult is appended per executed stage; a failure of an Abort-policy
stage stops the loop, a failure of a Continue-policy stage substitutes the
stage's safe default output and proceeds.  Returns the StageResults in
execution order, the final context, and whether the pipeline aborted. -/
def runStages {Ctx : Type} : List (Stage Ctx) → Ctx → List StageResult × Ctx × Bool
  | [], ctx => ([], ctx, false)
  | s :: rest, ctx =>
    match s.run ctx with
    | .success c d dur =>
        let r : StageResult :=
          { stage_name := s.name, status := .Success, duration := dur,
            detail := d, error := none }
        let out := runStages rest c
        (r :: out.1, out.2)
    | .failure e dur =>
        let r : StageResult :=
          { stage_name := s.name, status := .Failed, duration := dur,
            detail := [], error := some e }
        match s.policy with
        | .Abort => ([r], ctx, true)
        | .Continue =>
            let out := runStages rest (s.fallback ctx)
            (r :: out.1, out.2)

/-- Modelled from the spec: ValidationError (§7) — malformed input,
rejected before any stage runs and surfaced synchronously to the caller. -/
structure ValidationError where
  message : String
deriving DecidableEq, Repr

/-- Modelled from the spec: FinalResult (§6):
`{answer, follow_up, department, trace_id}`. -/
structure FinalResult where
  answer : String
  follow_up : Option String
  department : Option String
  trace_id : Nat
deriving DecidableEq, Repr

/-- Modelled from the spec: the generic, user-safe fallback message carried
by the FinalResult on pipeline abort (§7). -/
def fallbackMessage : String := "unable to process your request right now"

/-- Modelled from the spec: the FinalResult produced on pipeline abort — a
fixed value depending only on the trace id, never on internal error detail
(§4.1 abort policy, §7 user-visible behavior). -/
def fallbackResult (qid : Nat) : FinalResult :=
  { answer := fallbackMessage, follow_up := none, department := none, trace_id := qid }

/-- Modelled from the spec: PipelineConfiguration (§3): the ordered stage
list with collaborator bindings, plus the extraction of the final
answer / follow-up / department from the terminal stage's output context. -/
structure PipelineConfig (Ctx : Type) where
  stages : List (Stage Ctx)
  finalize : Ctx → String × Option String × Option String

/-- The blank-input test used for validation: every character of the query
text is whitespace.  This is exactly the `!query.trim()` check the UI
callers perform (`FloatingChatbot.sendMessage`, `useChat.sendMessage`):
a string trims to empty iff all its characters are whitespace. -/
def isBlank (s : String) : Bool := s.data.all Char.isWhitespace

/-- Modelled from the spec: `process(query_text, user_id)` (§4.1), whose
implementation files are missing from the source tree.  Empty or
whitespace-only input is rejected with a ValidationError, producing a trace
with zero stages and `overall_status = Failed` (§4.1 input contract);
otherwise the configured stages run in order and the trace records their
results, `Completed` on success of the full sequence and `Failed` on abort.
In every case exactly one closed trace is pushed into the HistoryStore
(§4.1 side effect, §8 first invariant).  `qid` is the freshly generated
query id and `elapsed` the wall-clock duration from trace open to trace
close, both inputs of the model. -/
def process {Ctx : Type} (cfg : PipelineConfig Ctx) (query_text user_id : String)
    (qid : Nat) (ctx0 : Ctx) (elapsed : Nat) (store : HistoryStore) :
    Except ValidationError FinalResult × QueryTrace × HistoryStore :=
  if isBlank query_text then
    let tr : QueryTrace :=
      { query_id := qid, user_id := user_id, query_text := query_text,
        stages := [], overall_status := .Failed, total_duration := elapsed }
    (.error { message := "query text must be non-empty" }, tr, store.push tr)
  else
    let out := runStages cfg.stages ctx0
    let status : OverallStatus := if out.2.2 then .Failed else .Completed
    let tr : QueryTrace :=
      { query_id := qid, user_id := user_id, query_text := query_text,
        stages := out.1, overall_status := status, total_duration := elapsed }
    let fr : FinalResult :=
      if out.2.2 then fallbackResult qid
      else
        let f := cfg.finalize out.2.1
        { answer := f.1, follow_up := f.2.1, department := f.2.2, trace_id := qid }
    (.ok fr, tr, store.push tr)

/-- The stage names recorded by the loop are exactly the configured stage
names, in configuration order, truncated to the executed prefix. -/
theorem runStages_names {Ctx : Type} (ss : List (Stage Ctx)) :
    ∀ ctx : Ctx, (runStages ss ctx).1.map (fun r => r.stage_name) =
      (ss.map (fun s => s.name)).take (runStages ss ctx).1.length := by
  induction ss with
  | nil => intro ctx; rfl
  | cons s rest ih =>
      intro ctx
      show (runStages (s :: rest) ctx).1.map (fun r => r.stage_name) = _
      unfold runStages
      cases hrun : s.run ctx with
      | success c d dur =>
          simp only [List.map_cons, List.length_cons, List.take_succ_cons, List.map]
          rw [ih c]
      | failure e dur =>
          cases hpol : s.policy with
          | Abort => simp
          | Continue =>
              simp only [List.map_cons, List.length_cons, List.take_succ_cons, List.map]
              rw [ih (s.fallback ctx)]

/-- When the loop reports an abort, the recorded results end with the
Failed result of an Abort-policy configured stage, with its error
captured. -/
theorem runStages_aborted {Ctx : Type} (ss : List (Stage Ctx)) :
    ∀ ctx : Ctx, (runStages ss ctx).2.2 = true →
      ∃ rs r s, (runStages ss ctx).1 = rs ++ [r] ∧
        s ∈ ss ∧ s.policy = .Abort ∧ r.stage_name = s.name ∧
        r.status = .Failed ∧ r.error.isSome := by
  induction ss with
  | nil => intro ctx h; simp [runStages] at h
  | cons s rest ih =>
      intro ctx h
      unfold runStages at h ⊢
      cases hrun : s.run ctx with
      | success c d dur =>
          rw [hrun] at h
          simp only at h
          obtain ⟨rs, r, s', hlist, hmem, hpol, hname, hstat, herr⟩ := ih c h
          refine ⟨⟨s.name, .Success, dur, d, none⟩ :: rs, r, s', ?_, ?_, hpol, hname, hstat, herr⟩
          · simp only [List.cons_append]
            rw [← hlist]
          · exact List.mem_cons_of_mem s hmem
      | failure e dur =>
          rw [hrun] at h
          cases hpol : s.policy with
          | Abort =>
              refine ⟨[], ⟨s.name, .Failed, dur, [], some e⟩, s, by simp [hpol], ?_, hpol, rfl, rfl, rfl⟩
              exact List.mem_cons_self s rest
          | Continue =>
              rw [hpol] at h
              simp only at h
              obtain ⟨rs, r, s', hlist, hmem, hpol', hname, hstat, herr⟩ := ih (s.fallback ctx) h
              refine ⟨⟨s.name, .Failed, dur, [], some e⟩ :: rs, r, s', ?_, ?_, hpol', hname, hstat, herr⟩
              · simp only [hpol, List.cons_append]
                rw [← hlist]
              · exact List.mem_cons_of_mem s hmem

/-- Modelled from the spec: the per-stage accumulator of the aggregator's
single pass over the stored traces — total duration, number of executed
(non-Skipped) results, successes and failures for one stage name; the
pipeline implementation files are missing from the source tree. -/
structure StageAcc where
  sumDur : Nat
  execCount : Nat
  succCount : Nat
  failCount : Nat
deriving DecidableEq, Repr

/-- The all-zero accumulator a scan starts from. -/
def StageAcc.init : StageAcc := ⟨0, 0, 0, 0⟩

/-- Modelled from the spec: fold one StageResult into the per-stage
accumulators; Skipped results change nothing (§4.3: skipped stages are
excluded, not counted as zero samples). -/
def addResult (acc : StageName → StageAcc) (r : StageResult) : StageName → StageAcc :=
  fun n =>
    if n = r.stage_name then
      match r.status with
      | .Success =>
          { sumDur := (acc n).sumDur + r.duration, execCount := (acc n).execCount + 1,
            succCount := (acc n).succCount + 1, failCount := (acc n).failCount }
      | .Failed =>
          { sumDur := (acc n).sumDur + r.duration, execCount := (acc n).execCount + 1,
            succCount := (acc n).succCount, failCount := (acc n).failCount + 1 }
      | .Skipped => acc n
    else acc n

/-- Modelled from the spec: the aggregator's scan of the HistoryStore
contents, trace by trace and stage result by stage result. -/
def accumStages (ts : List QueryTrace) : StageName → StageAcc :=
  ts.foldl (fun acc t => t.stages.foldl addResult acc) (fun _ => StageAcc.init)

/-- Modelled from the spec: MetricsSnapshot (§4.3) — overall success rate
and average latency plus per-stage statistics; `no_data` is the explicit
"no data" flag for an empty store, and a per-stage field is `none` when
that stage has no samples. -/
structure MetricsSnapshot where
  no_data : Bool
  overall_success_rate : ℚ
  overall_average_duration : ℚ
  stage_average_duration : StageName → Option ℚ
  stage_success_rate : StageName → Option ℚ

/-- Modelled from the spec: the aggregation over a list of traces
(§4.3 compute_snapshot contract), guarded so that no division by zero ever
occurs. -/
def computeFromTraces (ts : List QueryTrace) : MetricsSnapshot :=
  if ts.length = 0 then
    { no_data := true, overall_success_rate := 0, overall_average_duration := 0,
      stage_average_duration := fun _ => none, stage_success_rate := fun _ => none }
  else
    let acc := accumStages ts
    { no_data := false,
      overall_success_rate :=
        ((ts.countP (fun t => decide (t.overall_status = OverallStatus.Completed)) : ℚ)) /
          (ts.length : ℚ),
      overall_average_duration :=
        (((ts.map (fun t => t.total_duration)).sum : ℚ)) / (ts.length : ℚ),
      stage_average_duration := fun name =>
        if (acc name).execCount = 0 then none
        else some (((acc name).sumDur : ℚ) / ((acc name).execCount : ℚ)),
      stage_success_rate := fun name =>
        if (acc name).succCount + (acc name).failCount = 0 then none
        else some (((acc name).succCount : ℚ) /
          (((acc name).succCount + (acc name).failCount : Nat) : ℚ)) }

/-- Modelled from the spec: `compute_snapshot()` (§4.3) derives the
point-in-time statistics from the current HistoryStore snapshot. -/
def compute_snapshot (s : HistoryStore) : MetricsSnapshot :=
  computeFromTraces s.snapshot

/-- The StageResults of stage `name` that executed (status ≠ Skipped),
collected across the given traces: the reference list the per-stage
statistics are statistics of. -/
def executedResults (name : StageName) (ts : List QueryTrace) : List StageResult :=
  ((ts.map (fun t => t.stages)).flatten).filter
    (fun r => decide (r.stage_name = name) && ! decide (r.status = StageStatus.Skipped))

/-- The successful StageResults of stage `name` across the given traces. -/
def successResults (name : StageName) (ts : List QueryTrace) : List StageResult :=
  ((ts.map (fun t => t.stages)).flatten).filter
    (fun r => decide (r.stage_name = name) && decide (r.status = StageStatus.Success))

/-- The failed StageResults of stage `name` across the given traces. -/
def failedResults (name : StageName) (ts : List QueryTrace) : List StageResult :=
  ((ts.map (fun t => t.stages)).flatten).filter
    (fun r => decide (r.stage_name = name) && decide (r.status = StageStatus.Failed))

theorem accumStages_eq_foldl_flatten (ts : List QueryTrace) :
    accumStages ts = ((ts.map (fun t => t.stages)).flatten).foldl addResult
      (fun _ => StageAcc.init) := by
  show List.foldl _ _ ts = _
  generalize (fun _ : StageName => StageAcc.init) = a
  induction ts generalizing a with
  | nil => rfl
  | cons t ts ih => simp only [List.foldl_cons, List.map_cons, List.flatten_cons,
      List.foldl_append, ih]

/-- One pass of `addResult` over any result list computes, per stage name,
the sums and counts of the corresponding filtered sublists. -/
theorem foldl_addResult_spec (name : StageName) (rs : List StageResult) :
    ∀ acc : StageName → StageAcc,
      let fin := rs.foldl addResult acc name
      let ex := rs.filter
        (fun r => decide (r.stage_name = name) && ! decide (r.status = StageStatus.Skipped))
      let su := rs.filter
        (fun r => decide (r.stage_name = name) && decide (r.status = StageStatus.Success))
      let fa := rs.filter
        (fun r => decide (r.stage_name = name) && decide (r.status = StageStatus.Failed))
      fin.sumDur = (acc name).sumDur + (ex.map (fun r => r.duration)).sum ∧
      fin.execCount = (acc name).execCount + ex.length ∧
      fin.succCount = (acc name).succCount + su.length ∧
      fin.failCount = (acc name).failCount + fa.length := by
  induction rs with
  | nil => intro acc; exact ⟨rfl, rfl, rfl, rfl⟩
  | cons r rs ih =>
      intro acc
      obtain ⟨h1, h2, h3, h4⟩ := ih (addResult acc r)
      dsimp only at h1 h2 h3 h4 ⊢
      rw [List.foldl_cons]
      by_cases hn : r.stage_name = name
      · cases hst : r.status with
        | Success =>
            simp only [List.filter_cons, hn, hst]
            refine ⟨?_, ?_, ?_, ?_⟩ <;>
              simp [h1, h2, h3, h4, addResult, hn, hst] <;> omega
        | Failed =>
            simp only [List.filter_cons, hn, hst]
            refine ⟨?_, ?_, ?_, ?_⟩ <;>
              simp [h1, h2, h3, h4, addResult, hn, hst] <;> omega
        | Skipped =>
            simp only [List.filter_cons, hn, hst]
            refine ⟨?_, ?_, ?_, ?_⟩ <;>
              simp [h1, h2, h3, h4, addResult, hn, hst]
      · have hn' : ¬ (name = r.stage_name) := fun h => hn h.symm
        simp only [List.filter_cons, hn]
        refine ⟨?_, ?_, ?_, ?_⟩ <;>
          simp [h1, h2, h3, h4, addResult, hn, hn']

/-- The accumulator over a trace list computes exactly the filtered sums
and counts of `executedResults` / `successResults` / `failedResults`. -/
theorem accumStages_spec (name : StageName) (ts : List QueryTrace) :
    (accumStages ts name).sumDur =
        ((executedResults name ts).map (fun r => r.duration)).sum ∧
      (accumStages ts name).execCount = (executedResults name ts).length ∧
      (accumStages ts name).succCount = (successResults name ts).length ∧
      (accumStages ts name).failCount = (failedResults name ts).length := by
  have h := foldl_addResult_spec name ((ts.map (fun t => t.stages)).flatten)
    (fun _ => StageAcc.init)
  rw [accumStages_eq_foldl_flatten]
  simpa [executedResults, successResults, failedResults, StageAcc.init] using h

/-! ## ApiClient (translated from src/unnamed/part_001) -/

/-- The parse outcome of `response.json()` for an error body, as
`ApiClient.handleResponse` inspects it: a string `detail` field, an array
of `{msg}` records, some other JSON shape, or a parse failure (the `catch`
branch). -/
inductive ErrorBody where
  | detailStr (s : String)
  | detailArr (msgs : List String)
  | otherJson
  | unparsable
deriving DecidableEq, Repr

/-- The fetch `Response` fields that `ApiClient.handleResponse` reads. -/
structure Response where
  status : Nat
  statusText : String
  errorBody : ErrorBody
  contentTypeJson : Bool
  body : String
deriving DecidableEq, Repr

/-- Per the Fetch standard, `response.ok` is derived, not stored: it holds
iff the status code is in the range 200-299. -/
def Response.ok (r : Response) : Bool := 200 ≤ r.status && r.status < 300

/-- The browser state visible to `ApiClient`: the localStorage key-value
pairs and the current location. -/
structure BrowserState where
  storage : List (String × String)
  location : String
deriving DecidableEq, Repr

/-- `localStorage.removeItem(key)`: drop every entry under that key. -/
def removeItem (st : List (String × String)) (key : String) : List (String × String) :=
  st.filter (fun kv => kv.1 != key)

/-- `localStorage.getItem(key)`: the stored value, if any. -/
def getItem (st : List (String × String)) (key : String) : Option String :=
  (st.find? (fun kv => kv.1 == key)).map (fun kv => kv.2)

/-- `ApiClient.handleLogout` (src/unnamed/part_001 lines 23-30): clear the
`adminToken` and `adminInfo` entries from localStorage and redirect to the
login page. -/
def handleLogout (st : BrowserState) : BrowserState :=
  { storage := removeItem (removeItem st.storage "adminToken") "adminInfo",
    location := "/login" }

/-- The value `handleResponse` produces on an ok response: the parsed JSON
body or the text body. -/
inductive HandledBody where
  | jsonBody (s : String)
  | textBody (s : String)
deriving DecidableEq, Repr

/-- `ApiClient.handleResponse` (src/unnamed/part_001 lines 32-57) as a pure
state transformer: on a non-ok response it throws (`Except.error`) — first
logging out, when the status is 401, with the fixed session-expired
message; otherwise with the error detail extracted from the body (string
detail, joined array messages, the default "An error occurred", or the
HTTP status line when the body is unparsable).  On an ok response it
returns the JSON body when the content type is JSON, the text body
otherwise. -/
def handleResponse (r : Response) (st : BrowserState) :
    Except String HandledBody × BrowserState :=
  if ! r.ok then
    if r.status = 401 then
      (.error "Session expired. Please login again.", handleLogout st)
    else
      let errorDetail :=
        match r.errorBody with
        | .detailStr s => s
        | .detailArr msgs => String.intercalate ", " msgs
        | .otherJson => "An error occurred"
        | .unparsable => "HTTP " ++ toString r.status ++ ": " ++ r.statusText
      (.error errorDetail, st)
  else if r.contentTypeJson then
    (.ok (.jsonBody r.body), st)
  else
    (.ok (.textBody r.body), st)

theorem getItem_removeItem_self (l : List (String × String)) (key : String) :
    getItem (removeItem l key) key = none := by
  unfold getItem removeItem
  rw [Option.map_eq_none', List.find?_eq_none]
  intro x hx
  rw [List.mem_filter] at hx
  simpa using hx.2

theorem getItem_none_of_filter (l : List (String × String)) (key : String)
    (p : String × String → Bool) (h : getItem l key = none) :
    getItem (l.filter p) key = none := by
  unfold getItem at h ⊢
  rw [Option.map_eq_none', List.find?_eq_none]
  rw [Option.map_eq_none', List.find?_eq_none] at h
  intro x hx
  exact h x (List.mem_filter.mp hx).1

/-! ## Concrete collaborator assemblies used to exercise the model -/

/-- An always-succeeding collaborator; the context counts completed
stages. -/
def okStage (n : StageName) (p : FailurePolicy) (dur : Nat) : Stage Nat :=
  { name := n, policy := p, run := fun c => .success (c + 1) [] dur, fallback := id }

/-- An always-failing collaborator. -/
def failStage (n : StageName) (p : FailurePolicy) (k : ErrorKind) (msg : String)
    (dur : Nat) : Stage Nat :=
  { name := n, policy := p,
    run := fun _ => .failure { kind := k, message := msg } dur, fallback := id }

/-- The seven-stage pipeline with every collaborator succeeding
(Scenario A shape). -/
def demoConfig : PipelineConfig Nat :=
  { stages :=
      [okStage .Routing .Abort 10, okStage .Retrieval .Abort 50,
       okStage .History .Continue 5, okStage .PromptGeneration .Abort 20,
       okStage .Security .Continue 8, okStage .Inference .Abort 800,
       okStage .Formatting .Abort 15],
    finalize := fun c => ("answer after " ++ toString c ++ " stages", none, none) }

/-- The seven-stage pipeline whose Inference stage fails with a Timeout
(Scenario B shape). -/
def timeoutConfig : PipelineConfig Nat :=
  { stages :=
      [okStage .Routing .Abort 10, okStage .Retrieval .Abort 50,
       okStage .History .Continue 5, okStage .PromptGeneration .Abort 20,
       okStage .Security .Continue 8,
       failStage .Inference .Abort .Timeout "model timed out after 30s" 900,
       okStage .Formatting .Abort 15],
    finalize := fun c => ("answer after " ++ toString c ++ " stages", none, none) }

/-- A minimal closed trace used for exercising the HistoryStore. -/
def trivialTrace (i : Nat) : QueryTrace :=
  { query_id := i, user_id := "u", query_text := "q", stages := [],
    overall_status := .Completed, total_duration := 0 }

/-! ## Claim theorems -/

/-- C1: every call to `process`, on every path (validation rejection,
pipeline abort, completion — a cancellation surfaces as a stage failure of
kind Cancelled), pushes exactly one QueryTrace into the HistoryStore: the
resulting store is the input store with the call's trace pushed, and while
the store is below capacity the size delta is exactly 1 (at capacity,
eviction keeps the size constant). -/
theorem claim_C1_one_push_per_call {Ctx : Type} (cfg : PipelineConfig Ctx)
    (q u : String) (qid : Nat) (ctx0 : Ctx) (e : Nat) (store : HistoryStore) :
    (process cfg q u qid ctx0 e store).2.2 =
      store.push (process cfg q u qid ctx0 e store).2.1 ∧
    (store.traces.length < store.capacity →
      (process cfg q u qid ctx0 e store).2.2.traces.length = store.traces.length + 1) := by
  have hpush : (process cfg q u qid ctx0 e store).2.2 =
      store.push (process cfg q u qid ctx0 e store).2.1 := by
    unfold process
    split <;> rfl
  refine ⟨hpush, fun h => ?_⟩
  rw [hpush]
  exact HistoryStore.push_length_of_lt store _ h

/-- C1 witness: a concrete successful call on a store below capacity grows
it by exactly one trace. -/
theorem claim_C1_witness :
    (HistoryStore.empty 100).traces.length < (HistoryStore.empty 100).capacity ∧
    (process demoConfig "hello" "user1" 7 0 908
        (HistoryStore.empty 100)).2.2.traces.length =
      (HistoryStore.empty 100).traces.length + 1 :=
  ⟨by decide,
   (claim_C1_one_push_per_call demoConfig "hello" "user1" 7 0 908
      (HistoryStore.empty 100)).2 (by decide)⟩

/-- C2: a HistoryStore of capacity C fed any sequence of pushes from empty
never holds more than C traces and ends up with exactly the last C pushed
traces in push order; moreover a push onto a store at capacity evicts
precisely the oldest trace. -/
theorem claim_C2_bounded_fifo (C : Nat) (L : List QueryTrace) :
    (L.foldl HistoryStore.push (HistoryStore.empty C)).snapshot =
        L.drop (L.length - C) ∧
    (L.foldl HistoryStore.push (HistoryStore.empty C)).snapshot.length ≤ C ∧
    (∀ s : HistoryStore, ∀ t : QueryTrace, s.traces.length = s.capacity →
      (s.push t).snapshot = (s.traces ++ [t]).drop 1) := by
  have hfold := HistoryStore.foldl_push_traces L (HistoryStore.empty C)
    (by simp [HistoryStore.empty])
  have hfold' : (L.foldl HistoryStore.push (HistoryStore.empty C)).traces =
      L.drop (L.length - C) := by
    rw [hfold]; simp [HistoryStore.empty]
  refine ⟨hfold', ?_, ?_⟩
  · show (L.foldl HistoryStore.push (HistoryStore.empty C)).traces.length ≤ C
    rw [hfold', List.length_drop]
    omega
  · intro s t h
    show (s.push t).traces = _
    rw [HistoryStore.push_traces s t (Nat.le_of_eq h), h]
    congr 1
    omega

/-- C2 witness: pushing a third trace into a capacity-2 store at capacity
evicts the first trace and keeps the last two in push order. -/
theorem claim_C2_witness :
    (HistoryStore.mk 2 [trivialTrace 1, trivialTrace 2]).traces.length =
      (HistoryStore.mk 2 [trivialTrace 1, trivialTrace 2]).capacity ∧
    ((HistoryStore.mk 2 [trivialTrace 1, trivialTrace 2]).push
        (trivialTrace 3)).snapshot =
      ([trivialTrace 1, trivialTrace 2] ++ [trivialTrace 3]).drop 1 :=
  ⟨rfl,
   (claim_C2_bounded_fifo 2 []).2.2
     (HistoryStore.mk 2 [trivialTrace 1, trivialTrace 2]) (trivialTrace 3) rfl⟩

/-- C4: a query text that is empty or consists only of whitespace is
rejected immediately with a ValidationError: no stage runs, and the trace
has zero stages and `overall_status = Failed`. -/
theorem claim_C4_blank_rejected {Ctx : Type} (cfg : PipelineConfig Ctx)
    (q u : String) (qid : Nat) (ctx0 : Ctx) (e : Nat) (store : HistoryStore)
    (h : isBlank q = true) :
    (∃ err, (process cfg q u qid ctx0 e store).1 = .error err) ∧
    (process cfg q u qid ctx0 e store).2.1.stages = [] ∧
    (process cfg q u qid ctx0 e store).2.1.overall_status = .Failed := by
  unfold process
  rw [if_pos h]
  exact ⟨⟨_, rfl⟩, rfl, rfl⟩

/-- C4 witness: the whitespace-only input `"  \t "` is rejected with a
ValidationError, zero stages and a Failed trace. -/
theorem claim_C4_witness :
    isBlank "  \t " = true ∧
    ((∃ err, (process demoConfig "  \t " "user1" 7 0 3
        (HistoryStore.empty 100)).1 = .error err) ∧
      (process demoConfig "  \t " "user1" 7 0 3
        (HistoryStore.empty 100)).2.1.stages = [] ∧
      (process demoConfig "  \t " "user1" 7 0 3
        (HistoryStore.empty 100)).2.1.overall_status = .Failed) :=
  ⟨by decide,
   claim_C4_blank_rejected demoConfig "  \t " "user1" 7 0 3
     (HistoryStore.empty 100) (by decide)⟩

/-- C8: within any produced trace, StageResults appear in exactly the
order the stages executed — the recorded stage names are the configured
stage names in configuration order, truncated to the executed prefix (so
nothing is reordered or overwritten) — and the trace is a deterministic
function of the collaborators and inputs: it does not depend on the
history store's contents, so re-running the same deterministic
collaborators reproduces the same stage order. -/
theorem claim_C8_stage_order {Ctx : Type} (cfg : PipelineConfig Ctx)
    (q u : String) (qid : Nat) (ctx0 : Ctx) (e : Nat)
    (store store' : HistoryStore) :
    ((process cfg q u qid ctx0 e store).2.1.stages.map (fun r => r.stage_name) =
      (cfg.stages.map (fun s => s.name)).take
        (process cfg q u qid ctx0 e store).2.1.stages.length) ∧
    (process cfg q u qid ctx0 e store).2.1 =
      (process cfg q u qid ctx0 e store').2.1 := by
  unfold process
  split
  · exact ⟨rfl, rfl⟩
  · exact ⟨runStages_names cfg.stages ctx0, rfl⟩

/-- C3 counterexample: the claim's clause "before any trace exists" fails
on the model: on the concrete whitespace-only input `" "`, `process` does
raise a ValidationError, yet a QueryTrace (with zero stages) exists by the
end of the call — exactly one is pushed into the HistoryStore, as §4.1's
input contract and §8's first invariant require. -/
theorem claim_C3_counterexample :
    (∃ err, (process demoConfig " " "user1" 7 0 3
        (HistoryStore.empty 100)).1 = .error err) ∧
    (process demoConfig " " "user1" 7 0 3
        (HistoryStore.empty 100)).2.2.traces.length = 1 :=
  ⟨⟨{ message := "query text must be non-empty" }, rfl⟩, rfl⟩

/-- C3 (amended): for every non-blank input, `process` returns normally
whatever the stage collaborators do — no stage-level error ever escapes;
the only input on which `process` itself raises is a blank
(empty/whitespace-only) query text, which raises a ValidationError with
zero stages executed.  A zero-stage Failed trace is still created and
pushed for observability, so the error is raised before any stage result
exists, not before any trace exists. -/
theorem claim_C3_amended {Ctx : Type} (cfg : PipelineConfig Ctx)
    (q u : String) (qid : Nat) (ctx0 : Ctx) (e : Nat) (store : HistoryStore) :
    (isBlank q = false → ∃ fr, (process cfg q u qid ctx0 e store).1 = .ok fr) ∧
    (isBlank q = true →
      (∃ err, (process cfg q u qid ctx0 e store).1 = .error err) ∧
      (process cfg q u qid ctx0 e store).2.1.stages = []) ∧
    ((∃ err, (process cfg q u qid ctx0 e store).1 = .error err) →
      isBlank q = true) := by
  rcases Bool.eq_false_or_eq_true (isBlank q) with hb | hb
  · refine ⟨fun h => absurd hb (by simp [h]), fun _ => ?_, fun _ => hb⟩
    unfold process
    rw [if_pos hb]
    exact ⟨⟨_, rfl⟩, rfl⟩
  · have hb' : ¬ (isBlank q = true) := by simp [hb]
    refine ⟨fun _ => ?_, fun h => absurd h hb', fun h => ?_⟩
    · unfold process
      rw [if_neg hb']
      exact ⟨_, rfl⟩
    · obtain ⟨err, herr⟩ := h
      unfold process at herr
      rw [if_neg hb'] at herr
      simp at herr

/-- C3 witness: on the non-blank input `"hello"` the call returns
normally even though the Inference collaborator fails. -/
theorem claim_C3_witness :
    isBlank "hello" = false ∧
    ∃ fr, (process timeoutConfig "hello" "user1" 7 0 95
      (HistoryStore.empty 100)).1 = .ok fr :=
  ⟨by decide,
   (claim_C3_amended timeoutConfig "hello" "user1" 7 0 95
      (HistoryStore.empty 100)).1 (by decide)⟩

/-- C5: when the stage loop aborts — an Abort-policy stage failed — the
returned FinalResult is the fixed user-safe fallback (whose answer is the
constant fallback message, carrying no internal error detail), the trace's
overall_status is Failed, the trace is still pushed to the HistoryStore,
its stage list ends with the Failed result of the aborting Abort-policy
stage with the error captured there, and no StageResult for any later
stage is appended (the recorded names are a strict prefix of the
configured names). -/
theorem claim_C5_abort_fallback {Ctx : Type} (cfg : PipelineConfig Ctx)
    (q u : String) (qid : Nat) (ctx0 : Ctx) (e : Nat) (store : HistoryStore)
    (hq : isBlank q = false)
    (hab : (runStages cfg.stages ctx0).2.2 = true) :
    (process cfg q u qid ctx0 e store).1 = .ok (fallbackResult qid) ∧
    (fallbackResult qid).answer = fallbackMessage ∧
    (process cfg q u qid ctx0 e store).2.1.overall_status = .Failed ∧
    (process cfg q u qid ctx0 e store).2.2 =
      store.push (process cfg q u qid ctx0 e store).2.1 ∧
    (∃ rs r s, (process cfg q u qid ctx0 e store).2.1.stages = rs ++ [r] ∧
      s ∈ cfg.stages ∧ s.policy = .Abort ∧ r.stage_name = s.name ∧
      r.status = .Failed ∧ r.error.isSome) ∧
    ((process cfg q u qid ctx0 e store).2.1.stages.map (fun r => r.stage_name) =
      (cfg.stages.map (fun s => s.name)).take
        (process cfg q u qid ctx0 e store).2.1.stages.length) := by
  have hq' : ¬ (isBlank q = true) := by simp [hq]
  unfold process
  rw [if_neg hq']
  refine ⟨?_, rfl, ?_, rfl, runStages_aborted cfg.stages ctx0 hab,
    runStages_names cfg.stages ctx0⟩
  · simp [hab]
  · simp [hab]

/-- C5 witness: the concrete pipeline whose Inference stage times out
aborts, returns the fallback FinalResult, and still pushes the Failed
trace. -/
theorem claim_C5_witness :
    isBlank "What is the HR policy?" = false ∧
    (runStages timeoutConfig.stages 0).2.2 = true ∧
    (process timeoutConfig "What is the HR policy?" "user1" 7 0 995
        (HistoryStore.empty 100)).1 = .ok (fallbackResult 7) :=
  ⟨by decide, by decide,
   (claim_C5_abort_fallback timeoutConfig "What is the HR policy?" "user1" 7 0 995
      (HistoryStore.empty 100) (by decide) (by decide)).1⟩

/-- C6: on an empty HistoryStore, `compute_snapshot` reports the explicit
no-data flag with a zero success rate (no division happens); on a
non-empty store, the overall success rate is the number of Completed
traces divided by the total number of traces, whose denominator is
provably non-zero. -/
theorem claim_C6_empty_store_no_data (s : HistoryStore) :
    (s.snapshot = [] →
      (compute_snapshot s).no_data = true ∧
      (compute_snapshot s).overall_success_rate = 0) ∧
    (s.snapshot ≠ [] →
      (compute_snapshot s).no_data = false ∧
      ((s.snapshot.length : ℚ) ≠ 0) ∧
      (compute_snapshot s).overall_success_rate =
        (((s.snapshot.filter
            (fun t => decide (t.overall_status = OverallStatus.Completed))).length : ℚ)) /
          (s.snapshot.length : ℚ)) := by
  unfold compute_snapshot computeFromTraces
  constructor
  · intro h
    rw [if_pos (by rw [h]; rfl)]
    exact ⟨rfl, rfl⟩
  · intro h
    have hlen : s.snapshot.length ≠ 0 := fun h0 => h (List.length_eq_zero.mp h0)
    rw [if_neg hlen]
    refine ⟨rfl, by exact_mod_cast hlen, ?_⟩
    simp only [List.countP_eq_length_filter]

/-- C6 witness: the empty store yields the no-data snapshot; a one-trace
store yields a well-defined rate with non-zero denominator. -/
theorem claim_C6_witness :
    ((HistoryStore.empty 100).snapshot = [] ∧
      (compute_snapshot (HistoryStore.empty 100)).no_data = true ∧
      (compute_snapshot (HistoryStore.empty 100)).overall_success_rate = 0) ∧
    ((HistoryStore.mk 100 [trivialTrace 1]).snapshot ≠ [] ∧
      (compute_snapshot (HistoryStore.mk 100 [trivialTrace 1])).no_data = false) :=
  ⟨⟨rfl, (claim_C6_empty_store_no_data (HistoryStore.empty 100)).1 rfl⟩,
   ⟨by decide,
    ((claim_C6_empty_store_no_data (HistoryStore.mk 100 [trivialTrace 1])).2
      (by decide)).1⟩⟩

/-- C7: `compute_snapshot` is a pure function of the HistoryStore
snapshot: stores with identical snapshots yield identical MetricsSnapshot
results, and in particular two calls on an unchanged store agree — there
is no dependence on wall-clock time or randomness. -/
theorem claim_C7_pure_aggregation (s1 s2 : HistoryStore)
    (h : s1.snapshot = s2.snapshot) :
    compute_snapshot s1 = compute_snapshot s2 ∧
    compute_snapshot s1 = compute_snapshot s1 := by
  unfold compute_snapshot
  rw [h]
  exact ⟨rfl, rfl⟩

/-- C7 witness: two stores with the same (empty) snapshot but different
capacities give identical snapshots of metrics. -/
theorem claim_C7_witness :
    (HistoryStore.empty 5).snapshot = (HistoryStore.empty 9).snapshot ∧
    compute_snapshot (HistoryStore.empty 5) = compute_snapshot (HistoryStore.empty 9) :=
  ⟨rfl, (claim_C7_pure_aggregation (HistoryStore.empty 5) (HistoryStore.empty 9) rfl).1⟩

/-- C9: the per-stage statistics of `compute_snapshot` are statistics of
exactly the executed (non-Skipped) StageResults of that stage name across
the stored traces: `average_duration` is the arithmetic mean of their
durations (absent — not a zero sample — when the stage never executed, so
traces where the stage was skipped by an earlier abort contribute
nothing), and `success_rate` is successes / (successes + failures) with
Skipped results excluded from numerator and denominator. -/
theorem claim_C9_per_stage_stats (s : HistoryStore) (name : StageName) :
    (compute_snapshot s).stage_average_duration name =
      (if (executedResults name s.snapshot).length = 0 then none
       else some (((((executedResults name s.snapshot).map
            (fun r => r.duration)).sum : ℕ) : ℚ) /
          ((executedResults name s.snapshot).length : ℚ))) ∧
    (compute_snapshot s).stage_success_rate name =
      (if (successResults name s.snapshot).length +
            (failedResults name s.snapshot).length = 0 then none
       else some (((successResults name s.snapshot).length : ℚ) /
          (((successResults name s.snapshot).length +
            (failedResults name s.snapshot).length : Nat) : ℚ))) := by
  obtain ⟨hsum, hexec, hsucc, hfail⟩ := accumStages_spec name s.snapshot
  unfold compute_snapshot computeFromTraces
  by_cases h : s.snapshot.length = 0
  · have hnil : s.snapshot = [] := List.length_eq_zero.mp h
    rw [if_pos h, hnil]
    constructor
    · show (none : Option ℚ) = _
      simp [executedResults]
    · show (none : Option ℚ) = _
      simp [successResults, failedResults]
  · rw [if_neg h]
    dsimp only
    rw [hsum, hexec, hsucc, hfail]
    exact ⟨rfl, rfl⟩

/-- C10: in `ApiClient.handleResponse`, a 401 status always clears both
the `adminToken` and `adminInfo` localStorage entries and redirects to the
login page while throwing the session-expired error; and for every non-ok
response, `handleResponse` never returns a value — it throws. -/
theorem claim_C10_handle_response (r : Response) (st : BrowserState) :
    (r.status = 401 →
      (handleResponse r st).1 = .error "Session expired. Please login again." ∧
      getItem (handleResponse r st).2.storage "adminToken" = none ∧
      getItem (handleResponse r st).2.storage "adminInfo" = none ∧
      (handleResponse r st).2.location = "/login") ∧
    (r.ok = false → (handleResponse r st).1.isOk = false) := by
  constructor
  · intro h401
    have hok : (! r.ok) = true := by
      unfold Response.ok
      rw [h401]
      rfl
    unfold handleResponse
    rw [if_pos hok, if_pos h401]
    refine ⟨rfl, ?_, ?_, rfl⟩
    · exact getItem_none_of_filter _ _ _ (getItem_removeItem_self st.storage "adminToken")
    · exact getItem_removeItem_self (removeItem st.storage "adminToken") "adminInfo"
  · intro hok
    have hok' : (! r.ok) = true := by rw [hok]; rfl
    unfold handleResponse
    rw [if_pos hok']
    by_cases h4 : r.status = 401
    · rw [if_pos h4]
      rfl
    · rw [if_neg h4]
      rfl

/-- A 401 response as `handleResponse` would see it. -/
def demoResponse401 : Response :=
  { status := 401, statusText := "Unauthorized", errorBody := .unparsable,
    contentTypeJson := false, body := "" }

/-- A browser state holding an admin session. -/
def demoBrowser : BrowserState :=
  { storage := [("adminToken", "tok"), ("adminInfo", "info"), ("theme", "dark")],
    location := "/dashboard" }

/-- C10 witness: a concrete 401 response against a logged-in browser state
throws the session-expired error, clears both auth entries and redirects
to the login page. -/
theorem claim_C10_witness :
    demoResponse401.status = 401 ∧
    (handleResponse demoResponse401 demoBrowser).1 =
      .error "Session expired. Please login again." ∧
    getItem (handleResponse demoResponse401 demoBrowser).2.storage "adminToken" = none ∧
    getItem (handleResponse demoResponse401 demoBrowser).2.storage "adminInfo" = none ∧
    (handleResponse demoResponse401 demoBrowser).2.location = "/login" := by
  have h := (claim_C10_handle_response demoResponse401 demoBrowser).1 rfl
  exact ⟨rfl, h.1, h.2.1, h.2.2.1, h.2.2.2⟩

end Chatbot
